import Mathlib

/-!
A verification development for the dataset core: the type registry
(per-type test, coerce, compare, numeric, and the typeOf inference),
the change-event model (delta classification), and the notification
bus (bind, unbind, trigger).

JavaScript scalar values are embedded shallowly: numbers as rationals,
strings as Lean strings, time values (produced by the external moment
library) identified with their epoch-like numeric value.  The special
number NaN is represented by Option.none at conversion boundaries.
The date regexp of the time type is compiled with the global flag in
the source, so its observable behaviour depends on the mutable
lastIndex of the shared compiled regexp; that lastIndex is threaded
explicitly as a natural number through the time test and typeOf.
-/

/-- A raw JavaScript value as the core manipulates it: null, a boolean,
a (finite) number, a string, or a time value produced by the external
moment library, identified with its epoch-like numeric value. -/
inductive JSVal where
  | vnull
  | vbool (b : Bool)
  | vnum (q : ℚ)
  | vstr (s : String)
  | vtime (t : ℚ)
deriving DecidableEq

/-- The JavaScript typeof operator restricted to the embedded values
(null and moment objects both have typeof equal to "object"). -/
def jsTypeof : JSVal → String
  | .vnull => "object"
  | .vbool _ => "boolean"
  | .vnum _ => "number"
  | .vstr _ => "string"
  | .vtime _ => "object"

/-- Model of the JS ToString operation on numbers.  Only its values on
integers are relied upon by any theorem; non-integral rationals are
given a definite but unused rendering. -/
def numToString (q : ℚ) : String :=
  if q.den = 1 then toString q.num
  else toString q.num ++ "/" ++ toString q.den

/-- Model of the JS ToString operation on the embedded values.  The
rendering of a time value is never relied upon by any theorem. -/
def jsToString : JSVal → String
  | .vnull => "null"
  | .vbool true => "true"
  | .vbool false => "false"
  | .vnum q => numToString q
  | .vstr s => s
  | .vtime t => numToString t

/-- Model of the JS Boolean conversion (truthiness).  Objects, among
them moment time values, are always truthy. -/
def toBoolean : JSVal → Bool
  | .vnull => false
  | .vbool b => b
  | .vnum q => q != 0
  | .vstr s => s != ""
  | .vtime _ => true

/-- The numeric value of a list of decimal digit characters. -/
def digitsVal (cs : List Char) : Nat :=
  cs.foldl (fun a c => a * 10 + (c.toNat - 48)) 0

/-- Trim of leading and trailing spaces (model of the whitespace
stripping JS string-to-number conversion performs; restricted to the
plain space character, which is all any theorem relies on). -/
def trimSpaces (cs : List Char) : List Char :=
  ((cs.dropWhile (· = ' ')).reverse.dropWhile (· = ' ')).reverse

/-- Model of the JS StringToNumber conversion on decimal literals:
an optional sign, then digits with an optional fraction; the empty
(trimmed) string converts to 0; anything else is NaN, rendered none.
Exotic forms (hex, exponents, Infinity) are not modelled; no theorem
evaluates the conversion on them. -/
def strToNumber (s : String) : Option ℚ :=
  let cs := trimSpaces s.data
  if cs = [] then some 0
  else
    let neg : Bool := match cs with | '-' :: _ => true | _ => false
    let body : List Char :=
      match cs with
      | '-' :: r => r
      | '+' :: r => r
      | r => r
    let signed : ℚ → Option ℚ := fun mag => some (if neg then -mag else mag)
    let ip := body.takeWhile Char.isDigit
    let rest := body.dropWhile Char.isDigit
    match rest with
    | [] => if ip = [] then none else signed (digitsVal ip)
    | '.' :: fr =>
        if fr.all Char.isDigit && (!ip.isEmpty || !fr.isEmpty) then
          signed ((digitsVal ip : ℚ) + (digitsVal fr : ℚ) / (10 ^ fr.length))
        else none
    | _ => none

/-- Model of the JS ToNumber conversion (the Number builtin) on the
embedded values; none stands for NaN.  A time value converts through
its epoch-like value. -/
def jsToNumber : JSVal → Option ℚ
  | .vnull => some 0
  | .vbool true => some 1
  | .vbool false => some 0
  | .vnum q => some q
  | .vstr s => strToNumber s
  | .vtime t => some t

namespace DS

namespace types

namespace string

/-- string.coerce: null stays null, any other value goes through its
JS string rendering. -/
def coerce (v : JSVal) : JSVal :=
  if v = .vnull then .vnull else .vstr (jsToString v)

/-- string.test: true exactly when typeof the value is "string". -/
def test (v : JSVal) : Bool :=
  jsTypeof v == "string"

/-- string.compare: lexicographic via the JS relational operators. -/
def compare (s1 s2 : String) : Int :=
  if s1 < s2 then -1 else if s1 > s2 then 1 else 0

/-- string.numeric: returns the caller-supplied index argument; the
string value itself is ignored. -/
def numeric (_value : String) (index : ℚ) : ℚ :=
  index

end string

namespace boolean

/-- The anchored regular expression matching exactly the literals
"true" and "false", as a predicate on the argument's JS string
rendering. -/
def regexpTest (s : String) : Bool :=
  s == "true" || s == "false"

/-- boolean.coerce: the literal string "false" maps to false, any
other value goes through JS truthiness. -/
def coerce (v : JSVal) : JSVal :=
  if v = .vstr "false" then .vbool false else .vbool (toBoolean v)

/-- boolean.test: native booleans, or values whose string rendering
is the literal "true" or "false". -/
def test (v : JSVal) : Bool :=
  jsTypeof v == "boolean" || regexpTest (jsToString v)

/-- boolean.numeric: 1 for true, 0 for false. -/
def numeric (b : Bool) : ℚ :=
  if b then 1 else 0

/-- boolean.compare: 0 on strict equality, else through the JS <
operator, which compares booleans by their numeric conversion. -/
def compare (b1 b2 : Bool) : Int :=
  if b1 = b2 then 0 else if numeric b1 < numeric b2 then -1 else 1

end boolean

namespace number

/-- The number regular expression: an optional leading minus sign or
dot, one or more digits, then an optional dot followed by one or more
digits, anchored at both ends.  The pattern is deterministic (the
optional pieces never overlap with the digit runs), so a direct
functional matcher is faithful. -/
def regexpMatch (s : String) : Bool :=
  let body : List Char → Bool := fun cs =>
    let ds := cs.takeWhile Char.isDigit
    let rest := cs.dropWhile Char.isDigit
    !ds.isEmpty &&
      (match rest with
       | [] => true
       | '.' :: fr => !fr.isEmpty && fr.all Char.isDigit
       | _ => false)
  match s.data with
  | [] => false
  | c :: rest => if c = '-' || c = '.' then body rest else body (c :: rest)

/-- number.coerce: null stays null; otherwise the JS Number
conversion, with a NaN result mapped to null. -/
def coerce (v : JSVal) : JSVal :=
  if v = .vnull then .vnull
  else
    match jsToNumber v with
    | none => .vnull
    | some q => .vnum q

/-- number.test: native numbers, or strings whose rendering matches
the number regular expression. -/
def test (v : JSVal) : Bool :=
  jsTypeof v == "number" || regexpMatch (jsToString v)

/-- number.compare: 0 on strict equality, else by the JS < operator. -/
def compare (n1 n2 : ℚ) : Int :=
  if n1 = n2 then 0 else if n1 < n2 then -1 else 1

/-- number.numeric: the identity. -/
def numeric (q : ℚ) : ℚ :=
  q

end number

namespace time

/-- Does the compiled default-format date pattern match at position i?
The default format DD/MM/YYYY compiles (through the format lookup
table, each token replaced once) to two digits, a slash, two digits, a
slash, four digits; the pattern has fixed length 10. -/
def dateMatchAt (cs : List Char) (i : Nat) : Bool :=
  (match cs.get? i with | some c => c.isDigit | none => false) &&
  (match cs.get? (i+1) with | some c => c.isDigit | none => false) &&
  (cs.get? (i+2) == some '/') &&
  (match cs.get? (i+3) with | some c => c.isDigit | none => false) &&
  (match cs.get? (i+4) with | some c => c.isDigit | none => false) &&
  (cs.get? (i+5) == some '/') &&
  (match cs.get? (i+6) with | some c => c.isDigit | none => false) &&
  (match cs.get? (i+7) with | some c => c.isDigit | none => false) &&
  (match cs.get? (i+8) with | some c => c.isDigit | none => false) &&
  (match cs.get? (i+9) with | some c => c.isDigit | none => false)

/-- Search for the first match position of the date pattern at or
after position i, examining k candidate start positions. -/
def searchAux (cs : List Char) : Nat → Nat → Option Nat
  | _, 0 => none
  | i, k+1 => if dateMatchAt cs i then some i else searchAux cs (i+1) k

/-- Model of RegExp.prototype.test for the compiled default-format
date pattern, which the source compiles with the global flag: the
search starts at the shared lastIndex st; on success lastIndex becomes
the end of the match, on failure (or when st exceeds the string
length) it is reset to 0. -/
def gTest (st : Nat) (s : String) : Bool × Nat :=
  let cs := s.data
  if st > cs.length then (false, 0)
  else
    match searchAux cs st (cs.length + 1 - st) with
    | some p => (true, p + 10)
    | none => (false, 0)

/-- time.test with the default format: strings are tested against the
shared global-flag regexp (threading its lastIndex state); any
non-string — a number or a moment object, but also null or a boolean —
is accepted unconditionally with the state untouched. -/
def test (st : Nat) (v : JSVal) : Bool × Nat :=
  match v with
  | .vstr s => gTest st s
  | _ => (true, st)

/-- Model of the external moment(string, format) parser (an external
collaborator, outside this repository); only the fact that it yields a
time value is relied upon by any theorem.  A string fully matching the
default DD/MM/YYYY format is encoded as a number from its components;
any other string yields the definite value 0 (an invalid time). -/
def momentParse (s : String) : ℚ :=
  let cs := s.data
  if cs.length = 10 && dateMatchAt cs 0 then
    ((digitsVal (cs.drop 6) * 10000 +
      digitsVal ((cs.drop 3).take 2) * 100 +
      digitsVal (cs.take 2) : Nat) : ℚ)
  else 0

/-- time.coerce: strings are parsed with moment under the default
format, numbers go through the numeric moment constructor, and any
other value passes through unchanged. -/
def coerce (v : JSVal) : JSVal :=
  match v with
  | .vstr s => .vtime (momentParse s)
  | .vnum q => .vtime q
  | _ => v

/-- time.compare: through the JS relational operators, which compare
moment objects by their epoch-like valueOf. -/
def compare (d1 d2 : ℚ) : Int :=
  if d1 < d2 then -1 else if d1 > d2 then 1 else 0

/-- time.numeric: valueOf, the epoch-like value itself. -/
def numeric (t : ℚ) : ℚ :=
  t

end time

end types

/-- Type inference.  The candidate names are the registry keys with
string spliced to the end, hence boolean, number, time, string in that
order; the first type whose test succeeds is chosen.  When no test
succeeds the result defaults to string (string.test itself only
accepts strings, so for a non-string value that matches no other test
it is this explicit default that yields "string").  The shared
lastIndex state of the time regexp is threaded through. -/
def typeOf (st : Nat) (v : JSVal) : String × Nat :=
  if types.boolean.test v then ("boolean", st)
  else if types.number.test v then ("number", st)
  else
    let r := types.time.test st v
    if r.1 then ("time", r.2) else ("string", r.2)

/-- A change delta: optional before and after field maps.  A JS object
map is embedded as an association list with distinct keys, so the
length of the list is the number of keys the underscore keys helper
reports. -/
structure Delta where
  old : Option (List (String × JSVal))
  changed : Option (List (String × JSVal))
deriving DecidableEq

namespace Event

/-- Event.isDelete: the changed map is undefined or has zero keys. -/
def isDelete (d : Delta) : Bool :=
  match d.changed with
  | none => true
  | some m => m.length == 0

/-- Event.isAdd: the old map is undefined or has zero keys. -/
def isAdd (d : Delta) : Bool :=
  match d.old with
  | none => true
  | some m => m.length == 0

/-- Event.isUpdate: neither a delete nor an add. -/
def isUpdate (d : Delta) : Bool :=
  !isDelete d && !isAdd d

end Event

/-- One listener registration: a callback (named by an identifier) and
its optional context. -/
structure Reg where
  cb : Nat
  ctx : Option Nat
deriving DecidableEq

/-- The callbacks table of a bus: event name to the ordered sequence
of registrations (the source stores each sequence as an intrusive
linked list with a sentinel tail; appending at the tail and unlinking
a node correspond to list append and removal). -/
abbrev Bus := List (String × List Reg)

namespace Events

/-- The registration sequence bound to an event name (empty when the
table has no entry for it). -/
def getCalls : Bus → String → List Reg
  | [], _ => []
  | (e, l) :: rest, ev => if e = ev then l else getCalls rest ev

/-- Replace (or create) the registration sequence of an event name. -/
def setCalls : Bus → String → List Reg → Bus
  | [], ev, rs => [(ev, rs)]
  | (e, l) :: rest, ev, rs =>
      if e = ev then (ev, rs) :: rest else (e, l) :: setCalls rest ev rs

/-- Events.bind: append a registration at the tail of the event's
sequence, creating the sequence if absent. -/
def bind (bus : Bus) (ev : String) (cb : Nat) (ctx : Option Nat) : Bus :=
  setCalls bus ev (getCalls bus ev ++ [⟨cb, ctx⟩])

/-- Unlink the first registration whose callback matches (the source
walks the linked list and breaks after the first unlink). -/
def removeFirst : List Reg → Nat → List Reg
  | [], _ => []
  | r :: rest, cb => if r.cb = cb then rest else r :: removeFirst rest cb

/-- Events.unbind: with no event name, drop the whole table; with an
event name only, reset that event's sequence; with both, unlink the
first matching registration of that event, and do nothing when the
table has no entry for the event. -/
def unbind (bus : Bus) (ev : Option String) (cb : Option Nat) : Bus :=
  match ev with
  | none => []
  | some e =>
      match cb with
      | none => setCalls bus e []
      | some c =>
          match List.lookup e bus with
          | none => bus
          | some l => setCalls bus e (removeFirst l c)

/-- Events.trigger: the source pops the event list made of "all" and
the event name, so the named event's listeners run first with the
trailing arguments only, then the wildcard listeners with the full
argument list, the event name in front.  Triggering the wildcard name
itself runs its listeners twice, both times with the full list.  A
falsy (empty) event name stops the dispatch loop immediately, before
any listener runs.  The result is the invocation sequence: callback
identifier paired with the argument list it receives. -/
def trigger (bus : Bus) (evName : String) (rest : List JSVal) :
    List (Nat × List JSVal) :=
  if evName = "" then []
  else
    (getCalls bus evName).map
      (fun r => (r.cb, if evName = "all" then JSVal.vstr evName :: rest else rest)) ++
    (getCalls bus "all").map (fun r => (r.cb, JSVal.vstr evName :: rest))

end Events

end DS

section ComparisonShapes

variable {α : Type} [LinearOrder α]

/-- The comparison shape that checks strict equality first and then
less-than, shared by the number and boolean descriptors. -/
def eqLtCmp (x y : α) : Int :=
  if x = y then 0 else if x < y then -1 else 1

/-- The comparison shape that checks less-than and then greater-than,
shared by the string and time descriptors. -/
def ltGtCmp (x y : α) : Int :=
  if x < y then -1 else if x > y then 1 else 0

theorem eqLtCmp_antisym (x y : α) : eqLtCmp x y = -eqLtCmp y x := by
  rcases lt_trichotomy x y with h | h | h
  · simp [eqLtCmp, h, ne_of_lt h, ne_of_gt h, asymm h]
  · subst h; simp [eqLtCmp]
  · simp [eqLtCmp, h, ne_of_lt h, ne_of_gt h, asymm h]

theorem eqLtCmp_eq_neg_one_iff (x y : α) : eqLtCmp x y = -1 ↔ x < y := by
  rcases lt_trichotomy x y with h | h | h
  · rw [eqLtCmp, if_neg (ne_of_lt h), if_pos h]
    simp [h]
  · subst h; simp [eqLtCmp, lt_irrefl]
  · rw [eqLtCmp, if_neg (ne_of_gt h), if_neg (asymm h)]
    simp [not_lt_of_gt h]

theorem eqLtCmp_eq_zero_iff (x y : α) : eqLtCmp x y = 0 ↔ x = y := by
  rcases lt_trichotomy x y with h | h | h
  · rw [eqLtCmp, if_neg (ne_of_lt h), if_pos h]
    simp [ne_of_lt h]
  · subst h; simp [eqLtCmp]
  · rw [eqLtCmp, if_neg (ne_of_gt h), if_neg (asymm h)]
    simp [ne_of_gt h]

theorem ltGtCmp_antisym (x y : α) : ltGtCmp x y = -ltGtCmp y x := by
  rcases lt_trichotomy x y with h | h | h
  · simp [ltGtCmp, h, asymm h]
  · subst h; simp [ltGtCmp, lt_irrefl]
  · simp [ltGtCmp, h, asymm h]

theorem ltGtCmp_eq_neg_one_iff (x y : α) : ltGtCmp x y = -1 ↔ x < y := by
  rcases lt_trichotomy x y with h | h | h
  · rw [ltGtCmp, if_pos h]
    simp [h]
  · subst h; simp [ltGtCmp, lt_irrefl]
  · rw [ltGtCmp, if_neg (asymm h), if_pos h]
    simp [not_lt_of_gt h]

theorem ltGtCmp_eq_zero_iff (x y : α) : ltGtCmp x y = 0 ↔ x = y := by
  rcases lt_trichotomy x y with h | h | h
  · rw [ltGtCmp, if_pos h]
    simp [ne_of_lt h]
  · subst h; simp [ltGtCmp, lt_irrefl]
  · rw [ltGtCmp, if_neg (asymm h), if_pos h]
    simp [ne_of_gt h]

theorem eqLtCmp_trans (x y z : α) (h1 : eqLtCmp x y = -1) (h2 : eqLtCmp y z = -1) :
    eqLtCmp x z = -1 :=
  (eqLtCmp_eq_neg_one_iff x z).mpr
    (lt_trans ((eqLtCmp_eq_neg_one_iff x y).mp h1) ((eqLtCmp_eq_neg_one_iff y z).mp h2))

theorem ltGtCmp_trans (x y z : α) (h1 : ltGtCmp x y = -1) (h2 : ltGtCmp y z = -1) :
    ltGtCmp x z = -1 :=
  (ltGtCmp_eq_neg_one_iff x z).mpr
    (lt_trans ((ltGtCmp_eq_neg_one_iff x y).mp h1) ((ltGtCmp_eq_neg_one_iff y z).mp h2))

end ComparisonShapes

theorem dateMatchAt_false_of_no_slash (cs : List Char) (h : '/' ∉ cs) (j : Nat) :
    DS.types.time.dateMatchAt cs j = false := by
  unfold DS.types.time.dateMatchAt
  cases hc : cs.get? (j+2) with
  | none => simp [hc]
  | some c =>
      have hm : c ∈ cs := List.get?_mem hc
      have hne : ¬ (c = '/') := fun e => h (e ▸ hm)
      simp [hc, hne]

theorem searchAux_eq_none (cs : List Char)
    (h : ∀ j, DS.types.time.dateMatchAt cs j = false) :
    ∀ k i, DS.types.time.searchAux cs i k = none := by
  intro k
  induction k with
  | zero => intro i; rfl
  | succ k ih => intro i; simp [DS.types.time.searchAux, h i, ih (i+1)]

theorem gTest_of_no_slash (st : Nat) (s : String) (h : '/' ∉ s.data) :
    DS.types.time.gTest st s = (false, 0) := by
  unfold DS.types.time.gTest
  show (if st > s.data.length then ((false : Bool), (0 : Nat))
    else
      match DS.types.time.searchAux s.data st (s.data.length + 1 - st) with
      | some p => (true, p + 10)
      | none => (false, 0)) = (false, 0)
  split
  · rfl
  · rw [searchAux_eq_none s.data (dateMatchAt_false_of_no_slash s.data h)]

namespace DS.Events

theorem getCalls_setCalls_self (bus : Bus) (e : String) (rs : List Reg) :
    getCalls (setCalls bus e rs) e = rs := by
  induction bus with
  | nil => simp [setCalls, getCalls]
  | cons p rest ih =>
      obtain ⟨k, l⟩ := p
      by_cases hk : k = e
      · subst hk; simp [setCalls, getCalls]
      · simp [setCalls, getCalls, hk, ih]

theorem getCalls_setCalls_ne (bus : Bus) (e e' : String) (rs : List Reg)
    (h : e ≠ e') : getCalls (setCalls bus e rs) e' = getCalls bus e' := by
  induction bus with
  | nil => simp [setCalls, getCalls, h]
  | cons p rest ih =>
      obtain ⟨k, l⟩ := p
      by_cases hk : k = e
      · subst hk; simp [setCalls, getCalls, h]
      · simp [setCalls, getCalls, hk, ih]

theorem getCalls_bind_self (bus : Bus) (ev : String) (cb : Nat) (ctx : Option Nat) :
    getCalls (bind bus ev cb ctx) ev = getCalls bus ev ++ [⟨cb, ctx⟩] := by
  unfold bind
  exact getCalls_setCalls_self bus ev _

theorem getCalls_bind_ne (bus : Bus) (ev ev' : String) (cb : Nat) (ctx : Option Nat)
    (h : ev ≠ ev') : getCalls (bind bus ev cb ctx) ev' = getCalls bus ev' := by
  unfold bind
  exact getCalls_setCalls_ne bus ev ev' _ h

theorem lookup_none_getCalls (bus : Bus) (e : String)
    (h : List.lookup e bus = none) : getCalls bus e = [] := by
  induction bus with
  | nil => rfl
  | cons p rest ih =>
      obtain ⟨k, l⟩ := p
      by_cases hk : e = k
      · subst hk; simp [List.lookup] at h
      · have hb : (e == k) = false := beq_eq_false_iff_ne.mpr hk
        simp only [List.lookup, hb] at h
        simp [getCalls, Ne.symm hk, ih h]

theorem lookup_some_getCalls (bus : Bus) (e : String) (l : List Reg)
    (h : List.lookup e bus = some l) : getCalls bus e = l := by
  induction bus with
  | nil => simp [List.lookup] at h
  | cons p rest ih =>
      obtain ⟨k, l'⟩ := p
      by_cases hk : e = k
      · subst hk
        simp [List.lookup] at h
        simp [getCalls, h]
      · have hb : (e == k) = false := beq_eq_false_iff_ne.mpr hk
        simp only [List.lookup, hb] at h
        simp [getCalls, Ne.symm hk, ih h]

theorem removeFirst_of_not_mem (l : List Reg) (cb : Nat)
    (h : ∀ r ∈ l, r.cb ≠ cb) : removeFirst l cb = l := by
  induction l with
  | nil => rfl
  | cons r rest ih =>
      simp [removeFirst, h r (by simp)]
      exact ih fun r' hr' => h r' (by simp [hr'])

theorem removeFirst_append (pre post : List Reg) (cb : Nat) (ctx : Option Nat)
    (h : ∀ r ∈ pre, r.cb ≠ cb) :
    removeFirst (pre ++ ⟨cb, ctx⟩ :: post) cb = pre ++ post := by
  induction pre with
  | nil => simp [removeFirst]
  | cons r rest ih =>
      simp [removeFirst, h r (by simp)]
      exact ih fun r' hr' => h r' (by simp [hr'])

end DS.Events

/-- C1 counterexample: for the delta whose old and changed maps are
both present and empty, isAdd and isDelete are both true (and isUpdate
is false), so it is not the case that exactly one of the three
predicates returns true. -/
theorem C1_counterexample :
    DS.Event.isAdd ⟨some [], some []⟩ = true ∧
    DS.Event.isDelete ⟨some [], some []⟩ = true ∧
    DS.Event.isUpdate ⟨some [], some []⟩ = false ∧
    ¬ ((if DS.Event.isAdd ⟨some [], some []⟩ = true then 1 else 0) +
       (if DS.Event.isUpdate ⟨some [], some []⟩ = true then 1 else 0) +
       (if DS.Event.isDelete ⟨some [], some []⟩ = true then 1 else 0) = 1) := by
  decide

/-- C1 (amended): for every delta at least one of isAdd, isUpdate,
isDelete is true; exactly one is true if and only if isAdd and
isDelete do not both hold; and they both hold exactly when both the
old and the changed maps are absent or empty (in which case isUpdate
is false, and the classification is unambiguous only under the
documented delete-first precedence). -/
theorem C1_theorem (d : DS.Delta) :
    (DS.Event.isAdd d = true ∨ DS.Event.isUpdate d = true ∨ DS.Event.isDelete d = true) ∧
    ((if DS.Event.isAdd d = true then 1 else 0) +
     (if DS.Event.isUpdate d = true then 1 else 0) +
     (if DS.Event.isDelete d = true then 1 else 0) = 1 ↔
      ¬ (DS.Event.isAdd d = true ∧ DS.Event.isDelete d = true)) ∧
    ((DS.Event.isAdd d = true ∧ DS.Event.isDelete d = true) ↔
      ((d.old = none ∨ d.old = some []) ∧ (d.changed = none ∨ d.changed = some []))) := by
  obtain ⟨o, c⟩ := d
  rcases o with _ | (_ | ⟨po, mo⟩) <;> rcases c with _ | (_ | ⟨pc, mc⟩) <;>
    simp [DS.Event.isAdd, DS.Event.isDelete, DS.Event.isUpdate]

/-- C2 counterexample: string.test is not true for every raw value; it
is false on a native number, a native boolean, and null. -/
theorem C2_counterexample :
    DS.types.string.test (JSVal.vnum 42) = false ∧
    DS.types.string.test (JSVal.vbool true) = false ∧
    DS.types.string.test JSVal.vnull = false := by
  decide

/-- C2 (amended): the string type descriptor's test predicate returns
true exactly for string values and false for every other raw value;
the universal fallback to the string type is provided by typeOf's
explicit default, not by string.test. -/
theorem C2_theorem (v : JSVal) :
    DS.types.string.test v = true ↔ ∃ s, v = JSVal.vstr s := by
  cases v <;> simp [DS.types.string.test, jsTypeof]

/-- C3: typeOf tries boolean, number, time and only then string, and
returns the first type whose test succeeds, falling back to "string"
when no non-string test succeeds; in particular typeOf of native true
is "boolean", of native 42 is "number", of the string "42" is
"number", and of the string "hello" is "string", whatever the shared
regexp state.  The final conjunct characterises the result for every
value and every regexp state. -/
theorem C3_theorem :
    (∀ st, (DS.typeOf st (JSVal.vbool true)).1 = "boolean") ∧
    (∀ st, (DS.typeOf st (JSVal.vnum 42)).1 = "number") ∧
    (∀ st, (DS.typeOf st (JSVal.vstr "42")).1 = "number") ∧
    (∀ st, (DS.typeOf st (JSVal.vstr "hello")).1 = "string") ∧
    (∀ st v,
      ((DS.typeOf st v).1 = "boolean" ↔ DS.types.boolean.test v = true) ∧
      ((DS.typeOf st v).1 = "number" ↔
        (DS.types.boolean.test v = false ∧ DS.types.number.test v = true)) ∧
      ((DS.typeOf st v).1 = "time" ↔
        (DS.types.boolean.test v = false ∧ DS.types.number.test v = false ∧
         (DS.types.time.test st v).1 = true)) ∧
      ((DS.typeOf st v).1 = "string" ↔
        (DS.types.boolean.test v = false ∧ DS.types.number.test v = false ∧
         (DS.types.time.test st v).1 = false))) := by
  refine ⟨?_, ?_, ?_, ?_, ?_⟩
  · intro st
    have hb : DS.types.boolean.test (JSVal.vbool true) = true := by decide
    simp [DS.typeOf, hb]
  · intro st
    have hb : DS.types.boolean.test (JSVal.vnum 42) = false := by decide
    have hn : DS.types.number.test (JSVal.vnum 42) = true := by decide
    simp [DS.typeOf, hb, hn]
  · intro st
    have hb : DS.types.boolean.test (JSVal.vstr "42") = false := by decide
    have hn : DS.types.number.test (JSVal.vstr "42") = true := by decide
    simp [DS.typeOf, hb, hn]
  · intro st
    have hb : DS.types.boolean.test (JSVal.vstr "hello") = false := by decide
    have hn : DS.types.number.test (JSVal.vstr "hello") = false := by decide
    have ht : DS.types.time.test st (JSVal.vstr "hello") = (false, 0) :=
      gTest_of_no_slash st "hello" (by decide)
    simp [DS.typeOf, hb, hn, ht]
  · intro st v
    by_cases hb : DS.types.boolean.test v = true
    · simp [DS.typeOf, hb]
    · by_cases hn : DS.types.number.test v = true
      · simp [DS.typeOf, hb, hn]
      · rcases hr : DS.types.time.test st v with ⟨tb, st2⟩
        cases tb <;> simp [DS.typeOf, hb, hn, hr]

/-- C4: the date regexp is compiled with the global flag and shared,
so a successful time.test on a date-formatted string advances the
shared lastIndex from 0 to 10, and the immediately repeated call on an
equal string returns false (resetting the state); consequently typeOf
on the same date-formatted string yields "time" on the first run and
"string" on the repeat, so neither function is a pure two-run-equal
function of its explicit arguments. -/
theorem C4_theorem :
    DS.types.time.test 0 (JSVal.vstr "12/03/2014") = (true, 10) ∧
    (DS.types.time.test 0 (JSVal.vstr "12/03/2014")).2 ≠ 0 ∧
    (DS.types.time.test
        (DS.types.time.test 0 (JSVal.vstr "12/03/2014")).2
        (JSVal.vstr "12/03/2014")).1 = false ∧
    DS.typeOf 0 (JSVal.vstr "12/03/2014") = ("time", 10) ∧
    (DS.typeOf
        (DS.typeOf 0 (JSVal.vstr "12/03/2014")).2
        (JSVal.vstr "12/03/2014")).1 = "string" := by
  decide

/-- C5: binding callback 0 to the wildcard event and callback 1 to
event x, then triggering x with argument 5, invokes both: the named
listener 1 with the trailing arguments only, and the wildcard listener
0 with the full argument list, the event name first. -/
theorem C5_theorem :
    DS.Events.trigger
        (DS.Events.bind (DS.Events.bind [] "all" 0 none) "x" 1 none)
        "x" [JSVal.vnum 5] =
      [(1, [JSVal.vnum 5]), (0, [JSVal.vstr "x", JSVal.vnum 5])] := by
  decide

/-- C6: within one event class listeners run in registration order:
concretely, binding callback 0 then callback 1 to event x and
triggering x with argument 5 invokes 0 before 1, each with argument 5;
in general a bind appends at the tail of the event's registration
sequence, and triggering a (non-empty, non-wildcard) event after a
fresh bind invokes all previously registered listeners of that event,
in order, before the newly bound one. -/
theorem C6_theorem :
    (DS.Events.trigger
        (DS.Events.bind (DS.Events.bind [] "x" 0 none) "x" 1 none)
        "x" [JSVal.vnum 5] =
      [(0, [JSVal.vnum 5]), (1, [JSVal.vnum 5])]) ∧
    (∀ (bus : DS.Bus) (ev : String) (cb : Nat) (ctx : Option Nat),
      DS.Events.getCalls (DS.Events.bind bus ev cb ctx) ev =
        DS.Events.getCalls bus ev ++ [⟨cb, ctx⟩]) ∧
    (∀ (bus : DS.Bus) (ev : String) (cb : Nat) (ctx : Option Nat)
        (rest : List JSVal), ev ≠ "" → ev ≠ "all" →
      DS.Events.trigger (DS.Events.bind bus ev cb ctx) ev rest =
        (DS.Events.getCalls bus ev).map (fun r => (r.cb, rest)) ++ [(cb, rest)] ++
        (DS.Events.getCalls bus "all").map
          (fun r => (r.cb, JSVal.vstr ev :: rest))) := by
  refine ⟨by decide, DS.Events.getCalls_bind_self, ?_⟩
  intro bus ev cb ctx rest h1 h2
  unfold DS.Events.trigger
  rw [if_neg h1, DS.Events.getCalls_bind_self,
    DS.Events.getCalls_bind_ne bus ev "all" cb ctx h2]
  simp [h2]

/-- C6 witness: the general part of C6 instantiated at a concrete bus,
event name, callback and argument list. -/
theorem C6_witness :
    ("x" : String) ≠ "" ∧ ("x" : String) ≠ "all" ∧
    DS.Events.trigger
        (DS.Events.bind (DS.Events.bind [] "x" 0 none) "x" 1 none)
        "x" [JSVal.vnum 5] =
      (DS.Events.getCalls (DS.Events.bind [] "x" 0 none) "x").map
          (fun r => (r.cb, [JSVal.vnum 5])) ++ [(1, [JSVal.vnum 5])] ++
        (DS.Events.getCalls (DS.Events.bind [] "x" 0 none) "all").map
          (fun r => (r.cb, JSVal.vstr "x" :: [JSVal.vnum 5])) :=
  ⟨by decide, by decide,
    C6_theorem.2.2 (DS.Events.bind [] "x" 0 none) "x" 1 none [JSVal.vnum 5]
      (by decide) (by decide)⟩

/-- C7 counterexample: after binding the same callback 0 twice to
event x and unbinding it with both arguments, one registration
survives and still fires on trigger — unbind does not detach every
registration of the callback. -/
theorem C7_counterexample :
    DS.Events.trigger
        (DS.Events.unbind
          (DS.Events.bind (DS.Events.bind [] "x" 0 none) "x" 0 none)
          (some "x") (some 0))
        "x" [] = [(0, [])] ∧
    DS.Events.trigger
        (DS.Events.unbind
          (DS.Events.bind (DS.Events.bind [] "x" 0 none) "x" 0 none)
          (some "x") (some 0))
        "x" [] ≠ [] := by
  decide

/-- C7 (amended): duplicate registrations of one callback are
independent and each fires; unbind with both arguments detaches only
the first (earliest) registration of that exact callback for that
event, preserving the order of the remaining registrations; it leaves
every other event untouched; and it is a silent no-op, observably
leaving every event's registrations unchanged, when no registration of
that event matches the callback. -/
theorem C7_theorem :
    (DS.Events.trigger
        (DS.Events.bind (DS.Events.bind [] "x" 7 none) "x" 7 none)
        "x" [] = [(7, []), (7, [])]) ∧
    (∀ (bus : DS.Bus) (ev : String) (cb : Nat) (ctx : Option Nat)
        (pre post : List DS.Reg),
      DS.Events.getCalls bus ev = pre ++ ⟨cb, ctx⟩ :: post →
      (∀ r ∈ pre, r.cb ≠ cb) →
      DS.Events.getCalls (DS.Events.unbind bus (some ev) (some cb)) ev =
        pre ++ post) ∧
    (∀ (bus : DS.Bus) (ev : String) (cb : Nat) (ev' : String), ev' ≠ ev →
      DS.Events.getCalls (DS.Events.unbind bus (some ev) (some cb)) ev' =
        DS.Events.getCalls bus ev') ∧
    (∀ (bus : DS.Bus) (ev : String) (cb : Nat),
      (∀ r ∈ DS.Events.getCalls bus ev, r.cb ≠ cb) →
      ∀ ev', DS.Events.getCalls (DS.Events.unbind bus (some ev) (some cb)) ev' =
        DS.Events.getCalls bus ev') := by
  refine ⟨by decide, ?_, ?_, ?_⟩
  · intro bus ev cb ctx pre post hsplit hpre
    simp only [DS.Events.unbind]
    cases hl : List.lookup ev bus with
    | none =>
        exfalso
        rw [DS.Events.lookup_none_getCalls bus ev hl] at hsplit
        exact List.cons_ne_nil _ _ (List.append_eq_nil.mp hsplit.symm).2
    | some l =>
        show DS.Events.getCalls
            (DS.Events.setCalls bus ev (DS.Events.removeFirst l cb)) ev =
          pre ++ post
        have hle : l = pre ++ ⟨cb, ctx⟩ :: post := by
          rw [← DS.Events.lookup_some_getCalls bus ev l hl, hsplit]
        rw [DS.Events.getCalls_setCalls_self, hle,
          DS.Events.removeFirst_append pre post cb ctx hpre]
  · intro bus ev cb ev' hne
    simp only [DS.Events.unbind]
    cases hl : List.lookup ev bus with
    | none => rfl
    | some l =>
        show DS.Events.getCalls
            (DS.Events.setCalls bus ev (DS.Events.removeFirst l cb)) ev' =
          DS.Events.getCalls bus ev'
        exact DS.Events.getCalls_setCalls_ne bus ev ev' _ (Ne.symm hne)
  · intro bus ev cb hnone ev'
    simp only [DS.Events.unbind]
    cases hl : List.lookup ev bus with
    | none => rfl
    | some l =>
        show DS.Events.getCalls
            (DS.Events.setCalls bus ev (DS.Events.removeFirst l cb)) ev' =
          DS.Events.getCalls bus ev'
        have hle : l = DS.Events.getCalls bus ev :=
          (DS.Events.lookup_some_getCalls bus ev l hl).symm
        by_cases hev : ev' = ev
        · subst hev
          rw [DS.Events.getCalls_setCalls_self, hle,
            DS.Events.removeFirst_of_not_mem _ cb hnone]
        · exact DS.Events.getCalls_setCalls_ne bus ev ev' _ (Ne.symm hev)

/-- C7 witness: the first-match removal part of C7 instantiated at a
concrete bus holding callbacks 5 then 6 on event x, unbinding 5. -/
theorem C7_witness :
    DS.Events.getCalls
        (DS.Events.bind (DS.Events.bind [] "x" 5 none) "x" 6 none) "x" =
      [] ++ (⟨5, none⟩ : DS.Reg) :: [⟨6, none⟩] ∧
    DS.Events.getCalls
        (DS.Events.unbind
          (DS.Events.bind (DS.Events.bind [] "x" 5 none) "x" 6 none)
          (some "x") (some 5)) "x" = [] ++ [⟨6, none⟩] :=
  ⟨by decide,
    C7_theorem.2.1 (DS.Events.bind (DS.Events.bind [] "x" 5 none) "x" 6 none)
      "x" 5 none [] [⟨6, none⟩] (by decide) (by simp)⟩

/-- C8: for each of the four type descriptors, any value accepted by
test whose coercion is not the uncoercible sentinel null is still
accepted by test after coercion (for time, whatever regexp state
either test call runs under). -/
theorem C8_theorem :
    (∀ v, DS.types.string.test v = true →
      DS.types.string.coerce v ≠ JSVal.vnull →
      DS.types.string.test (DS.types.string.coerce v) = true) ∧
    (∀ v, DS.types.boolean.test v = true →
      DS.types.boolean.coerce v ≠ JSVal.vnull →
      DS.types.boolean.test (DS.types.boolean.coerce v) = true) ∧
    (∀ v, DS.types.number.test v = true →
      DS.types.number.coerce v ≠ JSVal.vnull →
      DS.types.number.test (DS.types.number.coerce v) = true) ∧
    (∀ (st st2 : Nat) (v : JSVal), (DS.types.time.test st v).1 = true →
      DS.types.time.coerce v ≠ JSVal.vnull →
      (DS.types.time.test st2 (DS.types.time.coerce v)).1 = true) := by
  refine ⟨?_, ?_, ?_, ?_⟩
  · intro v h1 _h2
    cases v <;> simp_all [DS.types.string.test, DS.types.string.coerce, jsTypeof]
  · intro v _h1 _h2
    unfold DS.types.boolean.coerce
    split <;> simp [DS.types.boolean.test, jsTypeof]
  · intro v _h1 h2
    unfold DS.types.number.coerce
    by_cases hv : v = JSVal.vnull
    · exfalso
      apply h2
      simp [DS.types.number.coerce, hv]
    · cases hj : jsToNumber v with
      | none =>
          exfalso
          apply h2
          simp [DS.types.number.coerce, hv, hj]
      | some q => simp [hv, hj, DS.types.number.test, jsTypeof]
  · intro st st2 v _h1 h2
    cases v with
    | vnull => exact absurd rfl h2
    | vbool b => simp [DS.types.time.coerce, DS.types.time.test]
    | vnum q => simp [DS.types.time.coerce, DS.types.time.test]
    | vstr s => simp [DS.types.time.coerce, DS.types.time.test]
    | vtime t => simp [DS.types.time.coerce, DS.types.time.test]

/-- C8 witness: the number component of C8 instantiated at the string
"42", whose test succeeds and whose coercion is the number 42. -/
theorem C8_witness :
    DS.types.number.test (JSVal.vstr "42") = true ∧
    DS.types.number.coerce (JSVal.vstr "42") ≠ JSVal.vnull ∧
    DS.types.number.test (DS.types.number.coerce (JSVal.vstr "42")) = true :=
  ⟨by decide, by decide, C8_theorem.2.2.1 (JSVal.vstr "42") (by decide) (by decide)⟩

theorem stringCompare_antisym (a b : String) :
    DS.types.string.compare a b = -DS.types.string.compare b a := by
  rcases lt_trichotomy a b with h | h | h
  · have h1 : a < b := h
    have h2 : ¬ b < a := asymm h
    have h3 : b > a := h1
    unfold DS.types.string.compare
    rw [if_pos h1, if_neg h2, if_pos h3]
  · subst h
    have h2 : ¬ a < a := lt_irrefl a
    have h4 : ¬ a > a := h2
    unfold DS.types.string.compare
    rw [if_neg h2, if_neg h4]
    decide
  · have h1 : b < a := h
    have h2 : ¬ a < b := asymm h
    have h3 : a > b := h1
    have h4 : ¬ b > a := h2
    unfold DS.types.string.compare
    rw [if_neg h2, if_pos h3, if_pos h1]
    decide

theorem stringCompare_eq_neg_one_iff (a b : String) :
    DS.types.string.compare a b = -1 ↔ a < b := by
  rcases lt_trichotomy a b with h | h | h
  · have h1 : a < b := h
    unfold DS.types.string.compare
    rw [if_pos h1]
    simp [h1]
  · subst h
    have h2 : ¬ a < a := lt_irrefl a
    have h4 : ¬ a > a := h2
    unfold DS.types.string.compare
    rw [if_neg h2, if_neg h4]
    simp [h2]
  · have h2 : ¬ a < b := asymm h
    have h3 : a > b := h
    unfold DS.types.string.compare
    rw [if_neg h2, if_pos h3]
    simp [h2]

theorem stringCompare_trans (a b c : String)
    (h1 : DS.types.string.compare a b = -1)
    (h2 : DS.types.string.compare b c = -1) :
    DS.types.string.compare a c = -1 :=
  (stringCompare_eq_neg_one_iff a c).mpr
    (lt_trans ((stringCompare_eq_neg_one_iff a b).mp h1)
      ((stringCompare_eq_neg_one_iff b c).mp h2))

theorem stringCompare_eq_zero_iff (a b : String) :
    DS.types.string.compare a b = 0 ↔ a = b := by
  rcases lt_trichotomy a b with h | h | h
  · have h1 : a < b := h
    unfold DS.types.string.compare
    rw [if_pos h1]
    simp [ne_of_lt h]
  · subst h
    have h2 : ¬ a < a := lt_irrefl a
    have h4 : ¬ a > a := h2
    unfold DS.types.string.compare
    rw [if_neg h2, if_neg h4]
    simp
  · have h2 : ¬ a < b := asymm h
    have h3 : a > b := h
    unfold DS.types.string.compare
    rw [if_neg h2, if_pos h3]
    simp [ne_of_gt h]

/-- C9 counterexample: string.compare orders "a" strictly before "b",
but string.numeric ignores the string and returns the caller-supplied
index, so with legitimate indices (1 for "a", 0 for "b") the numeric
projection orders them the other way: compare is not consistent with
the ordering induced by the string type's numeric projection. -/
theorem C9_counterexample :
    DS.types.string.compare "a" "b" = -1 ∧
    DS.types.string.numeric "a" 1 = 1 ∧
    DS.types.string.numeric "b" 0 = 0 ∧
    ¬ (DS.types.string.numeric "a" 1 < DS.types.string.numeric "b" 0) ∧
    DS.types.string.numeric "a" 3 = DS.types.string.numeric "zzz" 3 := by
  have hab : ("a" : String) < "b" := by
    rw [String.lt_iff_toList_lt]
    show ['a'] < ['b']
    decide
  refine ⟨?_, rfl, rfl, by decide, rfl⟩
  rw [DS.types.string.compare, if_pos hab]

/-- C9 (amended): for the boolean, number and time descriptors,
compare is a strict total order on same-typed values — antisymmetric,
transitive, zero exactly on equal values — and is monotonically
consistent with that type's numeric projection; string.compare is
likewise a strict total order, but string.numeric returns the
caller-supplied index independently of the string value, so
consistency with it does not hold in general. -/
theorem C9_theorem :
    ((∀ a b : Bool, DS.types.boolean.compare a b = -DS.types.boolean.compare b a) ∧
     (∀ a b c : Bool, DS.types.boolean.compare a b = -1 →
       DS.types.boolean.compare b c = -1 → DS.types.boolean.compare a c = -1) ∧
     (∀ a b : Bool, DS.types.boolean.compare a b = 0 ↔ a = b) ∧
     (∀ a b : Bool, DS.types.boolean.compare a b = -1 ↔
       DS.types.boolean.numeric a < DS.types.boolean.numeric b)) ∧
    ((∀ a b : ℚ, DS.types.number.compare a b = -DS.types.number.compare b a) ∧
     (∀ a b c : ℚ, DS.types.number.compare a b = -1 →
       DS.types.number.compare b c = -1 → DS.types.number.compare a c = -1) ∧
     (∀ a b : ℚ, DS.types.number.compare a b = 0 ↔ a = b) ∧
     (∀ a b : ℚ, DS.types.number.compare a b = -1 ↔
       DS.types.number.numeric a < DS.types.number.numeric b)) ∧
    ((∀ a b : ℚ, DS.types.time.compare a b = -DS.types.time.compare b a) ∧
     (∀ a b c : ℚ, DS.types.time.compare a b = -1 →
       DS.types.time.compare b c = -1 → DS.types.time.compare a c = -1) ∧
     (∀ a b : ℚ, DS.types.time.compare a b = 0 ↔ a = b) ∧
     (∀ a b : ℚ, DS.types.time.compare a b = -1 ↔
       DS.types.time.numeric a < DS.types.time.numeric b)) ∧
    ((∀ a b : String, DS.types.string.compare a b = -DS.types.string.compare b a) ∧
     (∀ a b c : String, DS.types.string.compare a b = -1 →
       DS.types.string.compare b c = -1 → DS.types.string.compare a c = -1) ∧
     (∀ a b : String, DS.types.string.compare a b = 0 ↔ a = b)) := by
  have hnum : ∀ a b : ℚ, DS.types.number.compare a b = eqLtCmp a b := fun a b => rfl
  have htime : ∀ a b : ℚ, DS.types.time.compare a b = ltGtCmp a b := fun a b => rfl
  refine ⟨⟨by decide, by decide, by decide, by decide⟩, ⟨?_, ?_, ?_, ?_⟩,
    ⟨?_, ?_, ?_, ?_⟩, ⟨?_, ?_, ?_⟩⟩
  · intro a b; rw [hnum, hnum]; exact eqLtCmp_antisym a b
  · intro a b c h1 h2
    rw [hnum] at h1 h2 ⊢
    exact eqLtCmp_trans a b c h1 h2
  · intro a b; rw [hnum]; exact eqLtCmp_eq_zero_iff a b
  · intro a b; rw [hnum]; exact eqLtCmp_eq_neg_one_iff a b
  · intro a b; rw [htime, htime]; exact ltGtCmp_antisym a b
  · intro a b c h1 h2
    rw [htime] at h1 h2 ⊢
    exact ltGtCmp_trans a b c h1 h2
  · intro a b; rw [htime]; exact ltGtCmp_eq_zero_iff a b
  · intro a b; rw [htime]; exact ltGtCmp_eq_neg_one_iff a b
  · exact stringCompare_antisym
  · exact stringCompare_trans
  · exact stringCompare_eq_zero_iff

/-- C9 witness: the transitivity component for the number descriptor
instantiated at 1, 2, 3. -/
theorem C9_witness :
    DS.types.number.compare 1 2 = -1 ∧
    DS.types.number.compare 2 3 = -1 ∧
    DS.types.number.compare 1 3 = -1 :=
  ⟨by decide, by decide, C9_theorem.2.1.2.1 1 2 3 (by decide) (by decide)⟩

/-- C10: null handling is defined, not exceptional: string.coerce of
null is null, number.coerce of null is null, number.coerce yields null
whenever the numeric conversion of its input is not-a-number, and
typeOf of null resolves (to the type name "time", since the time test
accepts every non-string) whatever the regexp state. -/
theorem C10_theorem :
    DS.types.string.coerce JSVal.vnull = JSVal.vnull ∧
    DS.types.number.coerce JSVal.vnull = JSVal.vnull ∧
    (∀ v, jsToNumber v = none → DS.types.number.coerce v = JSVal.vnull) ∧
    (∀ st, (DS.typeOf st JSVal.vnull).1 = "time") := by
  refine ⟨by decide, by decide, ?_, ?_⟩
  · intro v h
    by_cases hv : v = JSVal.vnull
    · simp [DS.types.number.coerce, hv]
    · simp [DS.types.number.coerce, hv, h]
  · intro st
    have hb : DS.types.boolean.test JSVal.vnull = false := by decide
    have hn : DS.types.number.test JSVal.vnull = false := by decide
    simp [DS.typeOf, hb, hn, DS.types.time.test]

/-- C10 witness: the not-a-number component of C10 instantiated at the
unparsable string "abc". -/
theorem C10_witness :
    jsToNumber (JSVal.vstr "abc") = none ∧
    DS.types.number.coerce (JSVal.vstr "abc") = JSVal.vnull :=
  ⟨by decide, C10_theorem.2.2.1 (JSVal.vstr "abc") (by decide)⟩
